import Mathlib

/-!
# Verification of the financial-ledger posting and integrity engine

A shallow embedding of `src/ledger_engine.py` (the `LedgerEngine` class,
its input dataclasses and its validation logic) together with theorems
settling the spec's claims about it.

Modelling conventions:
* `Decimal` amounts are modelled as `Int` at a fixed decimal scale
  (hundredths: `1000.00` is `100000`).  Python `Decimal` comparison and
  addition at one scale coincide with `Int` comparison and addition.
* `datetime` values are modelled as `Nat` instants (UTC); the
  `isoformat()` rendering used by the hash serialization is modelled by
  the decimal rendering of that instant, an injective rendering just as
  `isoformat` is.
* `uuid.uuid4()` and `datetime.now()` are nondeterministic inputs to the
  engine; each operation takes an environment record carrying the ids
  and clock readings that run would draw.
* A SQLAlchemy session with commit/rollback is modelled functionally:
  each operation maps a committed `LedgerState` to a result together
  with the next committed state, returning the input state unchanged on
  the rollback (error) paths.  `reverse_transaction`, whose Python body
  commits twice (once inside the nested `post_transaction` call, once
  for its own session), additionally exposes the list of states
  committed during a run.
* `hashlib.sha256` is modelled by a full executable SHA-256 over byte
  lists, and `json.dumps(..., sort_keys=True)` by the literal string it
  produces for the fixed dictionary shapes the engine serializes.
-/

namespace LedgerSpec

/-! ## SHA-256 (model of `hashlib.sha256(...).hexdigest()`) -/

/-- Truncate to a 32-bit word. -/
def w32 (x : Nat) : Nat := x % 4294967296

/-- Right rotation of a 32-bit word by `n` bits. -/
def rotr (n x : Nat) : Nat := ((x >>> n) ||| (x <<< (32 - n))) % 4294967296

/-- SHA-256 upper-case sigma 0 (rotations 2, 13, 22). -/
def upperSigma0 (x : Nat) : Nat := rotr 2 x ^^^ rotr 13 x ^^^ rotr 22 x

/-- SHA-256 upper-case sigma 1 (rotations 6, 11, 25). -/
def upperSigma1 (x : Nat) : Nat := rotr 6 x ^^^ rotr 11 x ^^^ rotr 25 x

/-- SHA-256 lower-case sigma 0 (rotations 7, 18, shift 3). -/
def lowerSigma0 (x : Nat) : Nat := rotr 7 x ^^^ rotr 18 x ^^^ (x >>> 3)

/-- SHA-256 lower-case sigma 1 (rotations 17, 19, shift 10). -/
def lowerSigma1 (x : Nat) : Nat := rotr 17 x ^^^ rotr 19 x ^^^ (x >>> 10)

/-- SHA-256 choice function. -/
def chf (x y z : Nat) : Nat := (x &&& y) ^^^ ((x ^^^ 4294967295) &&& z)

/-- SHA-256 majority function. -/
def majf (x y z : Nat) : Nat := (x &&& y) ^^^ (x &&& z) ^^^ (y &&& z)

/-- The 64 SHA-256 round constants, in decimal. -/
def sha256K : List Nat :=
  [1116352408, 1899447441, 3049323471, 3921009573, 961987163,
   1508970993, 2453635748, 2870763221, 3624381080, 310598401,
   607225278, 1426881987, 1925078388, 2162078206, 2614888103,
   3248222580, 3835390401, 4022224774, 264347078, 604807628,
   770255983, 1249150122, 1555081692, 1996064986, 2554220882,
   2821834349, 2952996808, 3210313671, 3336571891, 3584528711,
   113926993, 338241895, 666307205, 773529912, 1294757372,
   1396182291, 1695183700, 1986661051, 2177026350, 2456956037,
   2730485921, 2820302411, 3259730800, 3345764771, 3516065817,
   3600352804, 4094571909, 275423344, 430227734, 506948616,
   659060556, 883997877, 958139571, 1322822218, 1537002063,
   1747873779, 1955562222, 2024104815, 2227730452, 2361852424,
   2428436474, 2756734187, 3204031479, 3329325298]

/-- The eight SHA-256 initial hash words, in decimal. -/
def sha256H0 : List Nat :=
  [1779033703, 3144134277, 1013904242, 2773480762,
   1359893119, 2600822924, 528734635, 1541459225]

/-- Big-endian 8-byte rendering of a length in bits. -/
def be8 (n : Nat) : List Nat :=
  (List.range 8).map (fun i => (n >>> (8 * (7 - i))) % 256)

/-- SHA-256 padding: append `0x80`, zero bytes to 56 mod 64, then the
bit length as 8 big-endian bytes. -/
def padMessage (msg : List Nat) : List Nat :=
  let r := msg.length % 64
  let k := (119 - r) % 64
  msg ++ [0x80] ++ List.replicate k 0 ++ be8 (8 * msg.length)

/-- Split a byte list into 64-byte chunks (structural recursion on a
fuel bounded by the length, so the kernel can evaluate it). -/
def chunks64Go : Nat → List Nat → List (List Nat)
  | _, [] => []
  | 0, _ => []
  | fuel + 1, b :: bs => (b :: bs.take 63) :: chunks64Go fuel (bs.drop 63)

/-- Split a byte list into 64-byte chunks. -/
def chunks64 (l : List Nat) : List (List Nat) := chunks64Go l.length l

/-- Group bytes into big-endian 32-bit words. -/
def toWords : List Nat → List Nat
  | b0 :: b1 :: b2 :: b3 :: rest =>
      ((b0 <<< 24) ||| (b1 <<< 16) ||| (b2 <<< 8) ||| b3) :: toWords rest
  | _ => []

/-- Extend a 16-word block by `fuel` scheduled words. -/
def extendWords (w : List Nat) : Nat → List Nat
  | 0 => w
  | fuel + 1 =>
      let i := w.length
      let nw := w32 (w.getD (i - 16) 0 + lowerSigma0 (w.getD (i - 15) 0) +
                     w.getD (i - 7) 0 + lowerSigma1 (w.getD (i - 2) 0))
      extendWords (w ++ [nw]) fuel

/-- One SHA-256 round on the working state. -/
def roundStep (st : Nat × Nat × Nat × Nat × Nat × Nat × Nat × Nat) (kw : Nat × Nat) :
    Nat × Nat × Nat × Nat × Nat × Nat × Nat × Nat :=
  let (a, b, c, d, e, f, g, h) := st
  let t1 := w32 (h + upperSigma1 e + chf e f g + kw.1 + kw.2)
  let t2 := w32 (upperSigma0 a + majf a b c)
  (w32 (t1 + t2), a, b, c, w32 (d + t1), e, f, g)

/-- Compress one 64-byte block into the running hash. -/
def processBlock (h : List Nat) (block : List Nat) : List Nat :=
  let ws := extendWords (toWords block) 48
  let init := (h.getD 0 0, h.getD 1 0, h.getD 2 0, h.getD 3 0,
               h.getD 4 0, h.getD 5 0, h.getD 6 0, h.getD 7 0)
  let (a, b, c, d, e, f, g, hh) := (sha256K.zip ws).foldl roundStep init
  [w32 (h.getD 0 0 + a), w32 (h.getD 1 0 + b), w32 (h.getD 2 0 + c), w32 (h.getD 3 0 + d),
   w32 (h.getD 4 0 + e), w32 (h.getD 5 0 + f), w32 (h.getD 6 0 + g), w32 (h.getD 7 0 + hh)]

/-- SHA-256 digest of a byte list, as eight 32-bit words. -/
def sha256words (msg : List Nat) : List Nat :=
  (chunks64 (padMessage msg)).foldl processBlock sha256H0

/-- A hexadecimal digit character. -/
def hexDigit (n : Nat) : Char := if n < 10 then Char.ofNat (48 + n) else Char.ofNat (87 + n)

/-- Lowercase 8-digit hexadecimal rendering of a 32-bit word. -/
def wordHex (w : Nat) : String :=
  String.mk ((List.range 8).map (fun i => hexDigit ((w >>> (4 * (7 - i))) % 16)))

/-- `hashlib.sha256(bytes).hexdigest()`. -/
def sha256hex (msg : List Nat) : String :=
  String.join ((sha256words msg).map wordHex)

/-- The UTF-8 bytes of an ASCII string (all strings the engine hashes
are ASCII, where UTF-8 bytes coincide with code points). -/
def strBytes (s : String) : List Nat := s.data.map Char.toNat

/-! ## Enumerations (`AccountType`, `EntryType`, `TransactionStatus`, `SeverityLevel`) -/

/-- `AccountType`: account types in double-entry accounting. -/
inductive AccountType where
  | ASSET | LIABILITY | EQUITY | REVENUE | EXPENSE
deriving DecidableEq, Repr

/-- `EntryType`: entry type in double-entry accounting. -/
inductive EntryType where
  | DEBIT | CREDIT
deriving DecidableEq, Repr

/-- `TransactionStatus`. -/
inductive TransactionStatus where
  | PENDING | POSTED | REVERSED | CANCELLED
deriving DecidableEq, Repr

/-- `SeverityLevel` for audit events. -/
inductive SeverityLevel where
  | INFO | WARNING | ERROR | CRITICAL
deriving DecidableEq, Repr

/-- `AccountType.value` (the `.value` string of the Python enum). -/
def AccountType.value : AccountType → String
  | .ASSET => "ASSET" | .LIABILITY => "LIABILITY" | .EQUITY => "EQUITY"
  | .REVENUE => "REVENUE" | .EXPENSE => "EXPENSE"

/-- `EntryType.value`. -/
def EntryType.value : EntryType → String
  | .DEBIT => "DEBIT" | .CREDIT => "CREDIT"

/-- `TransactionStatus.value`. -/
def TransactionStatus.value : TransactionStatus → String
  | .PENDING => "PENDING" | .POSTED => "POSTED"
  | .REVERSED => "REVERSED" | .CANCELLED => "CANCELLED"

/-! ## Persisted records and the ledger state

Rows of the four tables `chart_of_accounts`, `transactions`,
`journal_entries`, `audit_log`.  Amounts are `Int` at a fixed decimal
scale; instants are `Nat`.  The `event_metadata` JSON blob of audit
rows is not modelled (no claim reads it). -/

/-- A `chart_of_accounts` row. -/
structure Account where
  account_id : String
  account_code : String
  account_name : String
  account_type : AccountType
  parent_account_id : Option String
  level : Nat
  is_active : Bool
  description : Option String
  created_at : Nat
  created_by : String
  version : Nat
deriving DecidableEq, Repr

/-- A `transactions` row. -/
structure Transaction where
  transaction_id : String
  transaction_number : String
  transaction_date : Nat
  posting_date : Nat
  business_event_type : String
  business_key : Option String
  reference_number : Option String
  description : String
  status : TransactionStatus
  is_reversal : Bool
  reverses_transaction_id : Option String
  reversed_by_transaction_id : Option String
  reversal_reason : Option String
  created_at : Nat
  created_by : String
  source_system : String
  source_ip : Option String
  transaction_hash : String
deriving DecidableEq, Repr

/-- A `journal_entries` row. -/
structure JournalEntry where
  entry_id : String
  transaction_id : String
  entry_number : Nat
  account_id : String
  account_code : String
  entry_type : EntryType
  amount : Int
  currency : String
  cost_center : Option String
  department : Option String
  project : Option String
  memo : Option String
  posting_date : Nat
  entry_hash : String
deriving DecidableEq, Repr

/-- An `audit_log` row. -/
structure AuditRecord where
  audit_id : String
  event_timestamp : Nat
  event_type : String
  severity : SeverityLevel
  transaction_id : Option String
  user_id : String
  source_system : String
  source_ip : Option String
  action : String
  entity_type : Option String
  entity_id : Option String
  description : String
deriving DecidableEq, Repr

/-- The committed database state: the four record sets. -/
structure LedgerState where
  accounts : List Account
  transactions : List Transaction
  entries : List JournalEntry
  audit : List AuditRecord
deriving DecidableEq, Repr

/-- The empty database. -/
def LedgerState.empty : LedgerState := ⟨[], [], [], []⟩

/-! ## Input dataclasses -/

/-- `AccountDefinition`. -/
structure AccountDefinition where
  account_code : String
  account_name : String
  account_type : AccountType
  parent_account_code : Option String := none
  description : Option String := none
deriving DecidableEq, Repr

/-- `JournalEntryInput`. -/
structure JournalEntryInput where
  account_code : String
  entry_type : EntryType
  amount : Int
  cost_center : Option String := none
  department : Option String := none
  project : Option String := none
  memo : Option String := none
deriving DecidableEq, Repr

/-- `TransactionInput`. -/
structure TransactionInput where
  business_event_type : String
  description : String
  transaction_date : Nat
  entries : List JournalEntryInput
  business_key : Option String := none
  reference_number : Option String := none
deriving DecidableEq, Repr

/-! ## Errors

Every failure in the engine is a Python `ValueError` carrying a message
string; the inductive below has one constructor per `raise` site, and
`LedgerError.message` renders the exact Python message. -/

/-- One constructor per `raise ValueError(...)` site of the engine. -/
inductive LedgerError where
  | accountCodeRequired
  | accountNameRequired
  | amountNegative
  | businessEventTypeRequired
  | descriptionRequired
  | emptyEntries
  | notBalanced (debits credits : Int)
  | accountCodeExists (code : String)
  | parentNotFound (code : String)
  | accountNotFound (code : String)
  | transactionNotFound (tid : String)
  | cannotReverseStatus (status : TransactionStatus)
  | alreadyReversed (tid : String)
deriving DecidableEq, Repr

/-- Decidable equality of engine results (`Except` ships without one). -/
instance exceptDecEq {ε α : Type} [DecidableEq ε] [DecidableEq α] :
    DecidableEq (Except ε α)
  | .error e, .error f =>
      if h : e = f then .isTrue (by rw [h])
      else .isFalse (fun hh => by cases hh; exact h rfl)
  | .error _, .ok _ => .isFalse (fun hh => by cases hh)
  | .ok _, .error _ => .isFalse (fun hh => by cases hh)
  | .ok x, .ok y =>
      if h : x = y then .isTrue (by rw [h])
      else .isFalse (fun hh => by cases hh; exact h rfl)

/-- The Python `ValueError` message of each error. -/
def LedgerError.message : LedgerError → String
  | .accountCodeRequired => "Account code is required"
  | .accountNameRequired => "Account name is required"
  | .amountNegative => "Amount must be non-negative"
  | .businessEventTypeRequired => "Business event type is required"
  | .descriptionRequired => "Description is required"
  | .emptyEntries => "At least one journal entry is required"
  | .notBalanced d c =>
      "Transaction not balanced: Debits=" ++ toString d ++ ", Credits=" ++ toString c
  | .accountCodeExists c => "Account code " ++ c ++ " already exists"
  | .parentNotFound c => "Parent account " ++ c ++ " not found"
  | .accountNotFound c => "Account " ++ c ++ " not found"
  | .transactionNotFound t => "Transaction " ++ t ++ " not found"
  | .cannotReverseStatus st => "Cannot reverse transaction with status " ++ st.value
  | .alreadyReversed t => "Transaction already reversed by " ++ t

/-! ## Validation (`AccountDefinition.validate`, `JournalEntryInput.validate`,
`TransactionInput.validate`)

Python's `not s or not s.strip()` (empty or whitespace-only string) is
`isBlank s`.  The `isinstance` checks have no counterpart: the
embedding is typed.  The single Python loop that accumulates the two
totals is rendered as two folds over the same list. -/

/-- `not s or not s.strip()`: the string is empty or all whitespace. -/
def isBlank (s : String) : Bool := s.data.all Char.isWhitespace

/-- `AccountDefinition.validate`. -/
def AccountDefinition.validate (d : AccountDefinition) : Except LedgerError Unit :=
  if isBlank d.account_code then .error .accountCodeRequired
  else if isBlank d.account_name then .error .accountNameRequired
  else .ok ()

/-- `JournalEntryInput.validate`. -/
def JournalEntryInput.validate (e : JournalEntryInput) : Except LedgerError Unit :=
  if isBlank e.account_code then .error .accountCodeRequired
  else if e.amount < 0 then .error .amountNegative
  else .ok ()

/-- The `for entry in self.entries: entry.validate()` loop. -/
def validateEntries : List JournalEntryInput → Except LedgerError Unit
  | [] => .ok ()
  | e :: rest =>
      match e.validate with
      | .error err => .error err
      | .ok _ => validateEntries rest

/-- Total of the `DEBIT` amounts of a transaction input. -/
def inputDebits (es : List JournalEntryInput) : Int :=
  es.foldl (fun acc e => if e.entry_type = EntryType.DEBIT then acc + e.amount else acc) 0

/-- Total of the `CREDIT` amounts of a transaction input (the `else`
branch of the accumulation loop). -/
def inputCredits (es : List JournalEntryInput) : Int :=
  es.foldl (fun acc e => if e.entry_type = EntryType.DEBIT then acc else acc + e.amount) 0

/-- `TransactionInput.validate`. -/
def TransactionInput.validate (inp : TransactionInput) : Except LedgerError Unit :=
  if isBlank inp.business_event_type then .error .businessEventTypeRequired
  else if isBlank inp.description then .error .descriptionRequired
  else if inp.entries = [] then .error .emptyEntries
  else
    match validateEntries inp.entries with
    | .error err => .error err
    | .ok _ =>
        if inputDebits inp.entries ≠ inputCredits inp.entries then
          .error (.notBalanced (inputDebits inp.entries) (inputCredits inp.entries))
        else .ok ()

/-! ## Integrity hashes (`_calculate_transaction_hash`, `_calculate_entry_hash`)

`json.dumps(d, sort_keys=True)` renders the fixed dictionary shapes
with keys in sorted order, `", "` between items and `": "` after keys;
the functions below produce that exact string (key strings here never
need JSON escaping). -/

/-- A JSON string literal (no escaping needed for the engine's inputs). -/
def jsonStr (s : String) : String := "\"" ++ s ++ "\""

/-- `datetime.isoformat()`, modelled as the decimal rendering of the
instant — like `isoformat` an injective rendering of the clock value. -/
def isoformat (t : Nat) : String := toString t

/-- One entry dictionary of the transaction-hash input, keys sorted
(`account`, `amount`, `type`). -/
def entryHashJson (e : JournalEntryInput) : String :=
  "\x7b\"account\": " ++ jsonStr e.account_code ++
  ", \"amount\": " ++ jsonStr (toString e.amount) ++
  ", \"type\": " ++ jsonStr e.entry_type.value ++ "\x7d"

/-- The `json.dumps(hash_input, sort_keys=True)` string of
`_calculate_transaction_hash` (top-level keys sorted: `entries`,
`transaction_date`, `transaction_id`). -/
def txnHashJson (transaction_id : String) (transaction_date : Nat)
    (entries : List JournalEntryInput) : String :=
  "\x7b\"entries\": [" ++ String.intercalate ", " (entries.map entryHashJson) ++
  "], \"transaction_date\": " ++ jsonStr (isoformat transaction_date) ++
  ", \"transaction_id\": " ++ jsonStr transaction_id ++ "\x7d"

/-- `LedgerEngine._calculate_transaction_hash`. -/
def calculate_transaction_hash (transaction_id : String) (transaction_date : Nat)
    (entries : List JournalEntryInput) : String :=
  sha256hex (strBytes (txnHashJson transaction_id transaction_date entries))

/-- The `json.dumps` string of `_calculate_entry_hash` (keys sorted:
`account`, `amount`, `entry_id`, `transaction_id`, `type`). -/
def entryHashInputJson (entry_id transaction_id account_code : String)
    (entry_type : String) (amount : Int) : String :=
  "\x7b\"account\": " ++ jsonStr account_code ++
  ", \"amount\": " ++ jsonStr (toString amount) ++
  ", \"entry_id\": " ++ jsonStr entry_id ++
  ", \"transaction_id\": " ++ jsonStr transaction_id ++
  ", \"type\": " ++ jsonStr entry_type ++ "\x7d"

/-- `LedgerEngine._calculate_entry_hash`. -/
def calculate_entry_hash (entry_id transaction_id account_code : String)
    (entry_type : String) (amount : Int) : String :=
  sha256hex (strBytes (entryHashInputJson entry_id transaction_id account_code entry_type amount))

/-! ## Transaction numbers (`_generate_transaction_number`) -/

/-- SQL `LIKE 'p%'`: `p` is a prefix of the character list. -/
def likeMatch : List Char → List Char → Bool
  | [], _ => true
  | _ :: _, [] => false
  | p :: ps, c :: cs => p == c && likeMatch ps cs

/-- Whether a transaction number matches `LIKE '<today>-%'`. -/
def matchesDayPattern (today number : String) : Bool :=
  likeMatch (today ++ "-").data number.data

/-- The `SELECT COUNT(*) ... WHERE transaction_number LIKE :pattern`
query reading the committed state. -/
def todayCount (s : LedgerState) (today : String) : Nat :=
  (s.transactions.filter (fun t => matchesDayPattern today t.transaction_number)).length

/-- Python's `f"{seq:06d}"`: decimal rendering left-padded with zeros
to width 6. -/
def pad6 (n : Nat) : String :=
  String.mk (List.replicate (6 - (toString n).length) '0' ++ (toString n).data)

/-- `LedgerEngine._generate_transaction_number`, given the `%Y%m%d`
rendering of the current UTC day. -/
def generate_transaction_number (s : LedgerState) (today : String) : String :=
  let count := todayCount s today
  let seq := if count = 0 then 1 else count + 1
  today ++ "-" ++ pad6 seq

/-! ## Engine operations

Each operation takes the fresh ids and clock readings its Python run
would draw (`uuid4`, `datetime.now`) as explicit parameters, reads and
returns committed `LedgerState`s, and returns the input state unchanged
on every rollback path. -/

/-- The nondeterministic inputs drawn by one `post_transaction` run:
the transaction uuid, the per-entry uuids (by 1-based entry number),
the audit uuid, the commit clock and its `%Y%m%d` day rendering. -/
structure PostEnv where
  txnId : String
  entryId : Nat → String
  auditId : String
  now : Nat
  today : String

/-- `LedgerEngine.create_account`.  `accountId`/`auditId` are the uuids
drawn, `now` the clock reading. -/
def create_account (accountId auditId : String) (now : Nat)
    (account_def : AccountDefinition) (created_by : String)
    (s : LedgerState) : Except LedgerError String × LedgerState :=
  match account_def.validate with
  | .error e => (.error e, s)
  | .ok _ =>
      if (s.accounts.find? (fun a => a.account_code = account_def.account_code)).isSome then
        (.error (.accountCodeExists account_def.account_code), s)
      else
        let commit (parent_account_id : Option String) (level : Nat) :
            Except LedgerError String × LedgerState :=
          let account : Account := {
            account_id := accountId,
            account_code := account_def.account_code,
            account_name := account_def.account_name,
            account_type := account_def.account_type,
            parent_account_id := parent_account_id,
            level := level,
            is_active := true,
            description := account_def.description,
            created_at := now,
            created_by := created_by,
            version := 1 }
          let row : AuditRecord := {
            audit_id := auditId,
            event_timestamp := now,
            event_type := "ACCOUNT_CREATED",
            severity := .INFO,
            transaction_id := none,
            user_id := created_by,
            source_system := "LEDGER_ENGINE",
            source_ip := none,
            action := "CREATE_ACCOUNT",
            entity_type := some "ACCOUNT",
            entity_id := some accountId,
            description := "Account created: " ++ account_def.account_code ++ " - " ++
              account_def.account_name }
          (.ok accountId, { s with accounts := s.accounts ++ [account],
                                   audit := s.audit ++ [row] })
        match account_def.parent_account_code with
        | none => commit none 1
        | some pc =>
            match s.accounts.find? (fun a => a.account_code = pc) with
            | none => (.error (.parentNotFound pc), s)
            | some parent => commit (some parent.account_id) (parent.level + 1)

/-- The journal-entry creation loop of `post_transaction` (entry
numbers are 1-based via `enumerate(..., start=1)`). -/
def buildEntries (env : PostEnv) (transaction_id : String) (posting_date : Nat)
    (accounts : List Account) :
    List JournalEntryInput → Nat → Except LedgerError (List JournalEntry)
  | [], _ => .ok []
  | e :: rest, idx =>
      match accounts.find? (fun a => a.account_code = e.account_code) with
      | none => .error (.accountNotFound e.account_code)
      | some account =>
          let entry_id := env.entryId idx
          let je : JournalEntry := {
            entry_id := entry_id,
            transaction_id := transaction_id,
            entry_number := idx,
            account_id := account.account_id,
            account_code := e.account_code,
            entry_type := e.entry_type,
            amount := e.amount,
            currency := "AOA",
            cost_center := e.cost_center,
            department := e.department,
            project := e.project,
            memo := e.memo,
            posting_date := posting_date,
            entry_hash := calculate_entry_hash entry_id transaction_id e.account_code
              e.entry_type.value e.amount }
          match buildEntries env transaction_id posting_date accounts rest (idx + 1) with
          | .error err => .error err
          | .ok jes => .ok (je :: jes)

/-- The transaction header row a successful `post_transaction` run
inserts. -/
def postTxnRecord (env : PostEnv) (transaction_input : TransactionInput)
    (created_by source_system : String) (source_ip : Option String)
    (s : LedgerState) : Transaction := {
  transaction_id := env.txnId,
  transaction_number := generate_transaction_number s env.today,
  transaction_date := transaction_input.transaction_date,
  posting_date := env.now,
  business_event_type := transaction_input.business_event_type,
  business_key := transaction_input.business_key,
  reference_number := transaction_input.reference_number,
  description := transaction_input.description,
  status := .POSTED,
  is_reversal := false,
  reverses_transaction_id := none,
  reversed_by_transaction_id := none,
  reversal_reason := none,
  created_at := env.now,
  created_by := created_by,
  source_system := source_system,
  source_ip := source_ip,
  transaction_hash := calculate_transaction_hash env.txnId
    transaction_input.transaction_date transaction_input.entries }

/-- The `TRANSACTION_POSTED` audit row a successful `post_transaction`
run inserts. -/
def postAuditRecord (env : PostEnv) (transaction_input : TransactionInput)
    (created_by source_system : String) (source_ip : Option String)
    (s : LedgerState) : AuditRecord := {
  audit_id := env.auditId,
  event_timestamp := env.now,
  event_type := "TRANSACTION_POSTED",
  severity := .INFO,
  transaction_id := some env.txnId,
  user_id := created_by,
  source_system := source_system,
  source_ip := source_ip,
  action := "POST_TRANSACTION",
  entity_type := none,
  entity_id := none,
  description := "Transaction posted: " ++ generate_transaction_number s env.today ++
    " - " ++ transaction_input.description }

/-- `LedgerEngine.post_transaction`. -/
def post_transaction (env : PostEnv) (transaction_input : TransactionInput)
    (created_by source_system : String) (source_ip : Option String)
    (s : LedgerState) : Except LedgerError String × LedgerState :=
  match transaction_input.validate with
  | .error e => (.error e, s)
  | .ok _ =>
      match buildEntries env env.txnId env.now s.accounts
          transaction_input.entries 1 with
      | .error e => (.error e, s)
      | .ok jes =>
          (.ok env.txnId,
           { s with
             transactions := s.transactions ++
               [postTxnRecord env transaction_input created_by source_system source_ip s],
             entries := s.entries ++ jes,
             audit := s.audit ++
               [postAuditRecord env transaction_input created_by source_system source_ip s] })

/-- The transaction row joined to a journal entry (the `transaction_id`
foreign key is the primary key of `transactions`, so the SQL join
matches the first — only — row with that id). -/
def txnOf (s : LedgerState) (tid : String) : Option Transaction :=
  s.transactions.find? (fun t => t.transaction_id = tid)

/-- The journal entries of one transaction. -/
def entriesOf (s : LedgerState) (tid : String) : List JournalEntry :=
  s.entries.filter (fun e => e.transaction_id = tid)

/-- Total of the `DEBIT` amounts of stored entries. -/
def totalDebits (es : List JournalEntry) : Int :=
  es.foldl (fun acc e => if e.entry_type = EntryType.DEBIT then acc + e.amount else acc) 0

/-- Total of the `CREDIT` amounts of stored entries (the `else` branch
of the accumulation loop). -/
def totalCredits (es : List JournalEntry) : Int :=
  es.foldl (fun acc e => if e.entry_type = EntryType.DEBIT then acc else acc + e.amount) 0

/-- The filter of the balance query: entries of the account joined to a
transaction with status `POSTED`, and — when a cutoff is given — with
`Transaction.posting_date <= as_of_date`. -/
def entryCounted (s : LedgerState) (code : String) (as_of : Option Nat)
    (e : JournalEntry) : Bool :=
  decide (e.account_code = code) &&
  match txnOf s e.transaction_id with
  | some t =>
      decide (t.status = TransactionStatus.POSTED) &&
      match as_of with
      | some d => decide (t.posting_date ≤ d)
      | none => true
  | none => false

/-- `LedgerEngine.get_account_balance`. -/
def get_account_balance (s : LedgerState) (account_code : String)
    (as_of_date : Option Nat) : Except LedgerError Int :=
  match s.accounts.find? (fun a => a.account_code = account_code) with
  | none => .error (.accountNotFound account_code)
  | some account =>
      let es := s.entries.filter (entryCounted s account_code as_of_date)
      let total_debits := totalDebits es
      let total_credits := totalCredits es
      if account.account_type = AccountType.ASSET ∨
         account.account_type = AccountType.EXPENSE then
        .ok (total_debits - total_credits)
      else
        .ok (total_credits - total_debits)

/-- The per-transaction violation string of
`verify_double_entry_integrity`. -/
def violationMsg (t : Transaction) (d c : Int) : String :=
  "Transaction " ++ t.transaction_number ++ ": Debits (" ++ toString d ++
  ") != Credits (" ++ toString c ++ ")"

/-- `LedgerEngine.verify_double_entry_integrity`. -/
def verify_double_entry_integrity (s : LedgerState) (transaction_id : Option String) :
    Bool × List String :=
  let txns := s.transactions.filter (fun t =>
    decide (t.status = TransactionStatus.POSTED) &&
    match transaction_id with
    | some tid => decide (t.transaction_id = tid)
    | none => true)
  let errors := txns.filterMap (fun t =>
    let es := entriesOf s t.transaction_id
    let d := totalDebits es
    let c := totalCredits es
    if d ≠ c then some (violationMsg t d c) else none)
  (decide (errors.length = 0), errors)

/-- The `CREDIT if orig.entry_type == 'DEBIT' else DEBIT` flip. -/
def flipType (t : EntryType) : EntryType :=
  if t = EntryType.DEBIT then .CREDIT else .DEBIT

/-- The nondeterministic inputs of one `reverse_transaction` run: the
environment its nested `post_transaction` call draws, plus the audit
uuid of the outer session (the clock readings of the run are modelled
by the single instant `post.now`). -/
structure ReverseEnv where
  post : PostEnv
  auditId : String

/-- The outer-session update of `reverse_transaction`: mark the
original `Posted -> Reversed` with its `reversed_by` link, and set the
reversal flags of the new transaction. -/
def reverseMark (transaction_id reversal_id reversal_reason : String)
    (t : Transaction) : Transaction :=
  if t.transaction_id = transaction_id then
    { t with status := .REVERSED,
             reversed_by_transaction_id := some reversal_id }
  else if t.transaction_id = reversal_id then
    { t with is_reversal := true,
             reverses_transaction_id := some transaction_id,
             reversal_reason := some reversal_reason }
  else t

/-- The `TRANSACTION_REVERSED` audit row (Warning severity). -/
def reverseAuditRecord (audit_id : String) (now : Nat)
    (transaction_id original_number reversal_reason reversed_by
     source_system : String) (source_ip : Option String) : AuditRecord := {
  audit_id := audit_id,
  event_timestamp := now,
  event_type := "TRANSACTION_REVERSED",
  severity := .WARNING,
  transaction_id := some transaction_id,
  user_id := reversed_by,
  source_system := source_system,
  source_ip := source_ip,
  action := "REVERSE_TRANSACTION",
  entity_type := none,
  entity_id := none,
  description := "Transaction reversed: " ++ original_number ++
    " - Reason: " ++ reversal_reason }

/-- `LedgerEngine.reverse_transaction`, additionally returning the
committed-state sequence of the run: the nested `post_transaction`
commits its own session first, then the outer session commits the
status/link updates and the audit row. -/
def reverse_transaction_run (env : ReverseEnv)
    (transaction_id reversal_reason reversed_by source_system : String)
    (source_ip : Option String) (s : LedgerState) :
    Except LedgerError String × LedgerState × List LedgerState :=
  match s.transactions.find? (fun t => t.transaction_id = transaction_id) with
  | none => (.error (.transactionNotFound transaction_id), s, [])
  | some original_txn =>
      if original_txn.status ≠ TransactionStatus.POSTED then
        (.error (.cannotReverseStatus original_txn.status), s, [])
      else
        match original_txn.reversed_by_transaction_id with
        | some r => (.error (.alreadyReversed r), s, [])
        | none =>
            let original_entries := List.insertionSort
              (fun a b => a.entry_number ≤ b.entry_number) (entriesOf s transaction_id)
            let reversal_entries : List JournalEntryInput := original_entries.map (fun oe =>
              { account_code := oe.account_code,
                entry_type := flipType oe.entry_type,
                amount := oe.amount,
                memo := some ("Reversal of entry " ++ toString oe.entry_number ++ ": " ++
                  reversal_reason) })
            let reversal_input : TransactionInput := {
              business_event_type := "REVERSAL_" ++ original_txn.business_event_type,
              description := "Reversal of " ++ original_txn.transaction_number ++ ": " ++
                reversal_reason,
              transaction_date := env.post.now,
              entries := reversal_entries,
              business_key := original_txn.business_key,
              reference_number := original_txn.reference_number }
            match post_transaction env.post reversal_input reversed_by source_system
                source_ip s with
            | (.error e, _) => (.error e, s, [])
            | (.ok reversal_id, s1) =>
                let s2 : LedgerState :=
                  { s1 with
                    transactions := s1.transactions.map
                      (reverseMark transaction_id reversal_id reversal_reason),
                    audit := s1.audit ++
                      [reverseAuditRecord env.auditId env.post.now
                        transaction_id original_txn.transaction_number
                        reversal_reason reversed_by source_system source_ip] }
                (.ok reversal_id, s2, [s1, s2])

/-- `LedgerEngine.reverse_transaction`: the caller-visible result. -/
def reverse_transaction (env : ReverseEnv)
    (transaction_id reversal_reason reversed_by source_system : String)
    (source_ip : Option String) (s : LedgerState) :
    Except LedgerError String × LedgerState :=
  let r := reverse_transaction_run env transaction_id reversal_reason reversed_by
    source_system source_ip s
  (r.1, r.2.1)

/-- The states committed to the database during one
`reverse_transaction` run, in order. -/
def reverse_transaction_commits (env : ReverseEnv)
    (transaction_id reversal_reason reversed_by source_system : String)
    (source_ip : Option String) (s : LedgerState) : List LedgerState :=
  (reverse_transaction_run env transaction_id reversal_reason reversed_by
    source_system source_ip s).2.2

/-! ## Reachable states and the double-entry invariant -/

/-- The transaction ids present in a state. -/
def txnIds (s : LedgerState) : List String :=
  s.transactions.map (fun t => t.transaction_id)

/-- The double-entry invariant: every `POSTED` transaction's stored
entries have equal debit and credit totals, and every entry belongs to
a stored transaction. -/
def IntactLedger (s : LedgerState) : Prop :=
  (∀ t ∈ s.transactions, t.status = TransactionStatus.POSTED →
    totalDebits (entriesOf s t.transaction_id) = totalCredits (entriesOf s t.transaction_id)) ∧
  (∀ e ∈ s.entries, e.transaction_id ∈ txnIds s)

/-- States reachable from the empty database through the engine's
mutating operations.  The freshness side conditions on drawn
transaction ids model `uuid4` never colliding with a stored id (the
database's primary-key constraint would reject the insert otherwise). -/
inductive Reachable : LedgerState → Prop where
  | empty : Reachable LedgerState.empty
  | createAccount {s s' : LedgerState} {accountId auditId : String} {now : Nat}
      {d : AccountDefinition} {u aid : String} :
      Reachable s →
      create_account accountId auditId now d u s = (.ok aid, s') →
      Reachable s'
  | post {s s' : LedgerState} {env : PostEnv} {inp : TransactionInput}
      {u src : String} {ip : Option String} {tid : String} :
      Reachable s →
      env.txnId ∉ txnIds s →
      post_transaction env inp u src ip s = (.ok tid, s') →
      Reachable s'
  | reverse {s s' : LedgerState} {env : ReverseEnv}
      {tid reason u src : String} {ip : Option String} {rid : String} :
      Reachable s →
      env.post.txnId ∉ txnIds s →
      reverse_transaction env tid reason u src ip s = (.ok rid, s') →
      Reachable s'

/-! ## Spec-side definitions (for the refinement claims)

These follow the spec's words, to be compared with the engine
definitions above; they are deliberately written with a different
structure (filter/map/sum instead of accumulating folds, an explicit
five-way account-type split instead of the two-way `if`). -/

/-- The spec's selection of balance entries: the entry is for the
account, its transaction is `Posted`, and — when a cutoff is given —
the transaction's posting timestamp is at or before it. -/
def specCounted (s : LedgerState) (code : String) (as_of : Option Nat)
    (e : JournalEntry) : Bool :=
  decide (e.account_code = code) &&
  ((txnOf s e.transaction_id).elim false (fun t =>
    decide (t.status = TransactionStatus.POSTED) &&
    as_of.elim true (fun d => decide (t.posting_date ≤ d))))

/-- `sum(Debit amounts)` as the spec words it. -/
def sumDebits (es : List JournalEntry) : Int :=
  ((es.filter (fun e => e.entry_type = EntryType.DEBIT)).map (fun e => e.amount)).sum

/-- `sum(Credit amounts)` as the spec words it. -/
def sumCredits (es : List JournalEntry) : Int :=
  ((es.filter (fun e => e.entry_type = EntryType.CREDIT)).map (fun e => e.amount)).sum

/-- `balanceOf` as §4.4 of the spec words it: `sum(Debits) -
sum(Credits)` for Asset/Expense account types and `sum(Credits) -
sum(Debits)` for Liability/Equity/Revenue types, over the selected
entries. -/
def balanceOfSpec (s : LedgerState) (code : String) (as_of : Option Nat)
    (aty : AccountType) : Int :=
  let es := s.entries.filter (specCounted s code as_of)
  match aty with
  | .ASSET => sumDebits es - sumCredits es
  | .EXPENSE => sumDebits es - sumCredits es
  | .LIABILITY => sumCredits es - sumDebits es
  | .EQUITY => sumCredits es - sumDebits es
  | .REVENUE => sumCredits es - sumDebits es

/-- The fields of an entry input that the transaction-hash
serialization reads: account code, entry type, amount. -/
def hashView (e : JournalEntryInput) : String × EntryType × Int :=
  (e.account_code, e.entry_type, e.amount)

/-- The type/amount view of a stored journal entry. -/
def etaView (j : JournalEntry) : EntryType × Int := (j.entry_type, j.amount)

/-- The type/amount view of an entry input. -/
def inView (e : JournalEntryInput) : EntryType × Int := (e.entry_type, e.amount)

/-- Debit total of a type/amount view list. -/
def viewDebits (l : List (EntryType × Int)) : Int :=
  l.foldl (fun acc p => if p.1 = EntryType.DEBIT then acc + p.2 else acc) 0

/-- Credit total of a type/amount view list. -/
def viewCredits (l : List (EntryType × Int)) : Int :=
  l.foldl (fun acc p => if p.1 = EntryType.DEBIT then acc else acc + p.2) 0

/-! ## Concrete scenario fixtures (the spec's §8 scenario)

Accounts `1100` (Asset/Cash) and `4100` (Revenue/Sales), a balanced
sale of `1000.00` (amounts are in hundredths: `100000`), and its
reversal.  The uuids and clock readings are fixed arbitrary values. -/

/-- Account definition `1100` Cash, Asset. -/
def cashDef : AccountDefinition := ⟨"1100", "Cash", .ASSET, none, none⟩

/-- Account definition `4100` Sales Revenue, Revenue. -/
def salesDef : AccountDefinition := ⟨"4100", "Sales Revenue", .REVENUE, none, none⟩

/-- The ledger after registering `1100` and `4100`. -/
def baseLedger : LedgerState :=
  (create_account "A2" "U2" 1 salesDef "tester"
    (create_account "A1" "U1" 0 cashDef "tester" LedgerState.empty).2).2

/-- The environment of the sale posting. -/
def saleEnv : PostEnv := ⟨"T1", fun i => "E1-" ++ toString i, "U3", 10, "20250101"⟩

/-- The sale: Debit `1100` = 1000.00, Credit `4100` = 1000.00. -/
def saleInput : TransactionInput :=
  ⟨"SALE", "Test sale", 10,
   [⟨"1100", .DEBIT, 100000, none, none, none, none⟩,
    ⟨"4100", .CREDIT, 100000, none, none, none, none⟩], none, none⟩

/-- The ledger after posting the sale. -/
def postedLedger : LedgerState :=
  (post_transaction saleEnv saleInput "tester" "TEST" none baseLedger).2

/-- The environment of the reversal. -/
def revEnv : ReverseEnv := ⟨⟨"T2", fun i => "E2-" ++ toString i, "U4", 20, "20250101"⟩, "U5"⟩

/-- The ledger after reversing the sale. -/
def reversedLedger : LedgerState :=
  (reverse_transaction revEnv "T1" "Test" "tester" "TEST" none postedLedger).2

/-- The environment of a second same-day posting. -/
def saleEnv2 : PostEnv := ⟨"T9", fun i => "E9-" ++ toString i, "U9", 11, "20250101"⟩

/-- The ledger after two same-day sale postings. -/
def postedLedger2 : LedgerState :=
  (post_transaction saleEnv2 saleInput "tester" "TEST" none postedLedger).2

/-- An unbalanced input: Debit `1100` = 1000.00 against Credit `4100`
= 500.00. -/
def unbalancedInput : TransactionInput :=
  ⟨"SALE", "Test sale", 10,
   [⟨"1100", .DEBIT, 100000, none, none, none, none⟩,
    ⟨"4100", .CREDIT, 50000, none, none, none, none⟩], none, none⟩

/-- The same unbalanced entries with a blank description. -/
def blankDescInput : TransactionInput :=
  ⟨"SALE", "", 10,
   [⟨"1100", .DEBIT, 100000, none, none, none, none⟩,
    ⟨"4100", .CREDIT, 50000, none, none, none, none⟩], none, none⟩

/-- A balanced input naming an unregistered account code. -/
def missingAccountInput : TransactionInput :=
  ⟨"SALE", "Test sale", 10,
   [⟨"9999", .DEBIT, 0, none, none, none, none⟩], none, none⟩

/-- A chart holding one deactivated account, code `9`. -/
def dormantLedger : LedgerState :=
  ⟨[⟨"A9", "9", "Dormant", .ASSET, none, 1, false, none, 0, "tester", 1⟩], [], [], []⟩

/-- A zero-amount entry against the deactivated account. -/
def dormantInput : TransactionInput :=
  ⟨"ADJUST", "Zero adjust", 1, [⟨"9", .DEBIT, 0, none, none, none, none⟩], none, none⟩

/-- The environment of the zero-amount posting. -/
def zeroEnv : PostEnv := ⟨"TZ", fun i => "EZ-" ++ toString i, "UZ", 30, "20250101"⟩

/-- A transaction with a single Debit entry of amount exactly 0 and no
Credit line. -/
def zeroInput : TransactionInput :=
  ⟨"ADJUST", "Zero entry", 30, [⟨"1100", .DEBIT, 0, none, none, none, none⟩], none, none⟩

/-- A hash-test entry: Debit account `a`, amount 1. -/
def hashEntryA : JournalEntryInput := ⟨"a", .DEBIT, 1, none, none, none, none⟩

/-- A hash-test entry: Credit account `b`, amount 1. -/
def hashEntryB : JournalEntryInput := ⟨"b", .CREDIT, 1, none, none, none, none⟩

/-- `hashEntryA` with a memo attached (same account, type, amount). -/
def hashEntryAMemo : JournalEntryInput := ⟨"a", .DEBIT, 1, none, none, none, some "note"⟩

/-- A `POSTED` header whose stored entries were tampered with. -/
def tamperedTxn : Transaction :=
  ⟨"TX", "20250101-000001", 0, 0, "SALE", none, none, "Tampered", .POSTED,
   false, none, none, none, 0, "tester", "TEST", none, "deadbeef"⟩

/-- The single, unmatched debit entry of the tampered transaction. -/
def tamperedEntry : JournalEntry :=
  ⟨"EX", "TX", 1, "A1", "1100", .DEBIT, 100000, "AOA", none, none, none, none, 0, "deadbeef"⟩

/-- A state holding a `POSTED` transaction with unequal totals (as left
by tampering that bypassed the posting engine). -/
def tamperedLedger : LedgerState := ⟨[], [tamperedTxn], [tamperedEntry], []⟩

/-! ## Helper lemmas: the entry-creation loop -/

/-- Every error of the entry loop is an account-not-found error. -/
theorem buildEntries_error_shape (env : PostEnv) (tid : String) (pd : Nat)
    (accounts : List Account) :
    ∀ (es : List JournalEntryInput) (idx : Nat) (err : LedgerError),
      buildEntries env tid pd accounts es idx = .error err →
      ∃ c, err = .accountNotFound c := by
  intro es
  induction es with
  | nil => intro idx err h; simp [buildEntries] at h
  | cons e rest ih =>
      intro idx err h
      unfold buildEntries at h
      split at h
      · exact ⟨e.account_code, (Except.error.inj h).symm⟩
      · split at h
        · rename_i err0 heq
          obtain ⟨c, hc⟩ := ih (idx + 1) err0 heq
          exact ⟨c, (Except.error.inj h) ▸ hc⟩
        · exact absurd h (by simp)

/-- A successful entry loop copies each input's entry type and amount
into the stored entry, and stamps every stored entry with the
transaction id. -/
theorem buildEntries_ok_views (env : PostEnv) (tid : String) (pd : Nat)
    (accounts : List Account) :
    ∀ (es : List JournalEntryInput) (idx : Nat) (jes : List JournalEntry),
      buildEntries env tid pd accounts es idx = .ok jes →
      jes.map etaView = es.map inView ∧ ∀ j ∈ jes, j.transaction_id = tid := by
  intro es
  induction es with
  | nil =>
      intro idx jes h
      simp [buildEntries] at h
      simp [h]
  | cons e rest ih =>
      intro idx jes h
      unfold buildEntries at h
      split at h
      · exact absurd h (by simp)
      · split at h
        · exact absurd h (by simp)
        · rename_i jes' hrec
          have h' := (Except.ok.inj h)
          obtain ⟨hmap, hids⟩ := ih (idx + 1) jes' hrec
          constructor
          · rw [← h']
            simp [etaView, inView, hmap]
          · intro j hj
            rw [← h'] at hj
            rcases List.mem_cons.mp hj with hj | hj
            · rw [hj]
            · exact hids j hj

/-- If every entry's account code resolves, the entry loop succeeds. -/
theorem buildEntries_ok_of_accounts (env : PostEnv) (tid : String) (pd : Nat)
    (accounts : List Account) :
    ∀ (es : List JournalEntryInput),
      (∀ e ∈ es, (accounts.find? (fun a => a.account_code = e.account_code)).isSome) →
      ∀ idx, ∃ jes, buildEntries env tid pd accounts es idx = .ok jes := by
  intro es
  induction es with
  | nil => intro _ idx; exact ⟨[], rfl⟩
  | cons e rest ih =>
      intro hall idx
      have he := hall e (List.mem_cons_self e rest)
      obtain ⟨acc, hacc⟩ := Option.isSome_iff_exists.mp he
      obtain ⟨jes', hrec⟩ := ih (fun x hx => hall x (List.mem_cons_of_mem e hx)) (idx + 1)
      exact ⟨_, by unfold buildEntries; rw [hacc, hrec]⟩

/-- If some entry's account code does not resolve, the loop fails with
the account-not-found error of the first such entry. -/
theorem buildEntries_first_missing (env : PostEnv) (tid : String) (pd : Nat)
    (accounts : List Account) :
    ∀ (es : List JournalEntryInput) (idx : Nat) (e0 : JournalEntryInput),
      es.find? (fun e =>
        (accounts.find? (fun a => a.account_code = e.account_code)).isNone) = some e0 →
      buildEntries env tid pd accounts es idx = .error (.accountNotFound e0.account_code) := by
  intro es
  induction es with
  | nil => intro idx e0 h; simp at h
  | cons e rest ih =>
      intro idx e0 h
      rw [List.find?_cons] at h
      cases hfind : accounts.find? (fun a => a.account_code = e.account_code) with
      | none =>
          rw [hfind] at h
          simp at h
          subst h
          unfold buildEntries
          rw [hfind]
      | some acc =>
          rw [hfind] at h
          simp at h
          unfold buildEntries
          rw [hfind, ih (idx + 1) e0 h]

/-! ## Helper lemmas: totals and validation -/

/-- `totalDebits` reads only the type/amount view. -/
theorem totalDebits_view (js : List JournalEntry) :
    totalDebits js = viewDebits (js.map etaView) := by
  simp [totalDebits, viewDebits, List.foldl_map, etaView]

/-- `totalCredits` reads only the type/amount view. -/
theorem totalCredits_view (js : List JournalEntry) :
    totalCredits js = viewCredits (js.map etaView) := by
  simp [totalCredits, viewCredits, List.foldl_map, etaView]

/-- `inputDebits` reads only the type/amount view. -/
theorem inputDebits_view (es : List JournalEntryInput) :
    inputDebits es = viewDebits (es.map inView) := by
  simp [inputDebits, viewDebits, List.foldl_map, inView]

/-- `inputCredits` reads only the type/amount view. -/
theorem inputCredits_view (es : List JournalEntryInput) :
    inputCredits es = viewCredits (es.map inView) := by
  simp [inputCredits, viewCredits, List.foldl_map, inView]

/-- A stored entry list produced by the loop has the totals of its
input list. -/
theorem buildEntries_totals (env : PostEnv) (tid : String) (pd : Nat)
    (accounts : List Account) (es : List JournalEntryInput) (idx : Nat)
    (jes : List JournalEntry)
    (h : buildEntries env tid pd accounts es idx = .ok jes) :
    totalDebits jes = inputDebits es ∧ totalCredits jes = inputCredits es := by
  obtain ⟨hmap, -⟩ := buildEntries_ok_views env tid pd accounts es idx jes h
  rw [totalDebits_view, totalCredits_view, inputDebits_view, inputCredits_view, hmap]
  exact ⟨rfl, rfl⟩

/-- Entry-level validation succeeds exactly on a non-blank account code
and a non-negative amount. -/
theorem entry_validate_ok_iff (e : JournalEntryInput) :
    e.validate = .ok () ↔ isBlank e.account_code = false ∧ ¬e.amount < 0 := by
  unfold JournalEntryInput.validate
  constructor
  · intro h
    split at h
    · exact absurd h (by simp)
    · split at h
      · exact absurd h (by simp)
      · constructor
        · simp_all
        · assumption
  · rintro ⟨h1, h2⟩
    rw [if_neg (by simp [h1]), if_neg h2]

/-- The entry-validation loop succeeds when every entry validates. -/
theorem validateEntries_ok (es : List JournalEntryInput)
    (h : ∀ e ∈ es, e.validate = .ok ()) : validateEntries es = .ok () := by
  induction es with
  | nil => rfl
  | cons e rest ih =>
      unfold validateEntries
      rw [h e (List.mem_cons_self e rest)]
      exact ih (fun x hx => h x (List.mem_cons_of_mem e hx))

/-- Under passing pre-checks, transaction validation reduces to the
balance comparison. -/
theorem validate_balance_check (inp : TransactionInput)
    (h1 : isBlank inp.business_event_type = false)
    (h2 : isBlank inp.description = false)
    (h3 : inp.entries ≠ [])
    (h4 : ∀ e ∈ inp.entries, e.validate = .ok ()) :
    inp.validate =
      if inputDebits inp.entries ≠ inputCredits inp.entries then
        .error (.notBalanced (inputDebits inp.entries) (inputCredits inp.entries))
      else .ok () := by
  unfold TransactionInput.validate
  rw [if_neg (by simp [h1]), if_neg (by simp [h2]), if_neg h3,
      validateEntries_ok _ h4]

/-- A validated transaction input is balanced. -/
theorem validate_ok_balanced (inp : TransactionInput)
    (h : inp.validate = .ok ()) :
    inputDebits inp.entries = inputCredits inp.entries := by
  unfold TransactionInput.validate at h
  split at h
  · exact absurd h (by simp)
  · split at h
    · exact absurd h (by simp)
    · split at h
      · exact absurd h (by simp)
      · split at h
        · exact absurd h (by simp)
        · split at h
          · exact absurd h (by simp)
          · exact not_ne_iff.mp (by assumption)

/-! ## Helper lemmas: posting -/

/-- Success shape of `post_transaction`: the returned id is the drawn
uuid, validation passed, and the committed state appends exactly the
header row, the built entries, and the audit row. -/
theorem post_transaction_ok {env : PostEnv} {inp : TransactionInput}
    {u src : String} {ip : Option String} {s : LedgerState}
    {tid : String} {s' : LedgerState}
    (h : post_transaction env inp u src ip s = (.ok tid, s')) :
    tid = env.txnId ∧ inp.validate = .ok () ∧
    ∃ jes, buildEntries env env.txnId env.now s.accounts inp.entries 1 = .ok jes ∧
      s' = { s with
        transactions := s.transactions ++ [postTxnRecord env inp u src ip s],
        entries := s.entries ++ jes,
        audit := s.audit ++ [postAuditRecord env inp u src ip s] } := by
  unfold post_transaction at h
  split at h
  · exact absurd h (by simp)
  · rename_i val hv
    split at h
    · exact absurd h (by simp)
    · rename_i jes hb
      rw [Prod.mk.injEq] at h
      obtain ⟨h1, h2⟩ := h
      cases val
      exact ⟨(Except.ok.inj h1).symm, hv, jes, hb, h2.symm⟩

/-- Failure of `post_transaction` leaves the committed state unchanged
(the session is rolled back). -/
theorem post_transaction_err {env : PostEnv} {inp : TransactionInput}
    {u src : String} {ip : Option String} {s : LedgerState}
    {err : LedgerError} {s' : LedgerState}
    (h : post_transaction env inp u src ip s = (.error err, s')) :
    s' = s := by
  unfold post_transaction at h
  split at h
  · exact ((Prod.mk.injEq _ _ _ _).mp h).2.symm
  · split at h
    · exact ((Prod.mk.injEq _ _ _ _).mp h).2.symm
    · exact absurd (((Prod.mk.injEq _ _ _ _).mp h).1) (by simp)

/-- A failing validation propagates as the result of
`post_transaction`, with the state unchanged. -/
theorem post_transaction_validate_err {env : PostEnv} {inp : TransactionInput}
    {u src : String} {ip : Option String} {s : LedgerState} {e : LedgerError}
    (hv : inp.validate = .error e) :
    post_transaction env inp u src ip s = (.error e, s) := by
  unfold post_transaction
  rw [hv]

/-- Once validation has passed, `post_transaction` never returns the
unbalanced error (its only remaining failure is account resolution). -/
theorem post_no_notBalanced_of_validate_ok {env : PostEnv}
    {inp : TransactionInput} {u src : String} {ip : Option String}
    {s : LedgerState} (hv : inp.validate = .ok ()) (d c : Int) :
    (post_transaction env inp u src ip s).1 ≠ .error (.notBalanced d c) := by
  unfold post_transaction
  rw [hv]
  cases hb : buildEntries env env.txnId env.now s.accounts inp.entries 1 with
  | error err =>
      obtain ⟨c0, hc0⟩ := buildEntries_error_shape env env.txnId env.now s.accounts
        inp.entries 1 err hb
      simp [hc0]
  | ok jes => simp

/-! ## Helper lemmas: transaction numbers -/

/-- `LIKE 'p%'` matches `p` followed by anything. -/
theorem likeMatch_self_append (ps cs : List Char) :
    likeMatch ps (ps ++ cs) = true := by
  induction ps with
  | nil => rfl
  | cons p ps ih => simp [likeMatch, ih]

/-- A generated number matches its own day pattern. -/
theorem matchesDayPattern_self (today suffix : String) :
    matchesDayPattern today (today ++ "-" ++ suffix) = true := by
  unfold matchesDayPattern
  rw [String.data_append]
  exact likeMatch_self_append _ _

/-- The generated number is the day prefix plus the zero-padded
successor of the day's transaction count. -/
theorem generate_number_eq (s : LedgerState) (today : String) :
    generate_transaction_number s today =
      today ++ "-" ++ pad6 (todayCount s today + 1) := by
  unfold generate_transaction_number
  by_cases h : todayCount s today = 0
  · simp [h]
  · simp [h]

/-! ## Helper lemmas: the double-entry invariant -/

/-- `create_account` touches neither transactions nor entries. -/
theorem create_account_ok_same {accountId auditId : String} {now : Nat}
    {d : AccountDefinition} {u aid : String} {s s' : LedgerState}
    (h : create_account accountId auditId now d u s = (.ok aid, s')) :
    s'.transactions = s.transactions ∧ s'.entries = s.entries := by
  unfold create_account at h
  split at h
  · exact absurd h (by simp)
  · split at h
    · exact absurd h (by simp)
    · split at h
      · simp only [Prod.mk.injEq] at h
        rw [← h.2]
        exact ⟨rfl, rfl⟩
      · split at h
        · exact absurd h (by simp)
        · simp only [Prod.mk.injEq] at h
          rw [← h.2]
          exact ⟨rfl, rfl⟩

/-- The invariant transfers along unchanged transactions and entries. -/
theorem intact_transfer {s s' : LedgerState}
    (ht : s'.transactions = s.transactions) (he : s'.entries = s.entries)
    (hI : IntactLedger s) : IntactLedger s' := by
  unfold IntactLedger entriesOf txnIds at *
  rw [ht, he]
  exact hI

/-- A successful post preserves the double-entry invariant (given that
the drawn transaction uuid is fresh). -/
theorem post_preserves_intact {env : PostEnv} {inp : TransactionInput}
    {u src : String} {ip : Option String} {s : LedgerState}
    {tid : String} {s' : LedgerState}
    (hI : IntactLedger s) (hfresh : env.txnId ∉ txnIds s)
    (h : post_transaction env inp u src ip s = (.ok tid, s')) :
    IntactLedger s' := by
  obtain ⟨-, hv, jes, hb, hs'⟩ := post_transaction_ok h
  obtain ⟨-, hids⟩ := buildEntries_ok_views env env.txnId env.now s.accounts
    inp.entries 1 jes hb
  obtain ⟨hd, hc⟩ := buildEntries_totals env env.txnId env.now s.accounts
    inp.entries 1 jes hb
  have hbal : inputDebits inp.entries = inputCredits inp.entries :=
    validate_ok_balanced inp hv
  subst hs'
  have hent : ∀ x,
      entriesOf { s with
        transactions := s.transactions ++ [postTxnRecord env inp u src ip s],
        entries := s.entries ++ jes,
        audit := s.audit ++ [postAuditRecord env inp u src ip s] } x =
      entriesOf s x ++ jes.filter (fun e => e.transaction_id = x) := by
    intro x
    simp [entriesOf, List.filter_append]
  constructor
  · intro t ht hp
    rcases List.mem_append.mp ht with htl | htr
    · have hne : t.transaction_id ≠ env.txnId := by
        intro hEq
        exact hfresh (hEq ▸ List.mem_map_of_mem _ htl)
      have hjfil : jes.filter (fun e => e.transaction_id = t.transaction_id) = [] := by
        refine List.filter_eq_nil_iff.mpr (fun j hj => ?_)
        simp [hids j hj]
        exact fun hEq => hne hEq.symm
      rw [hent, hjfil, List.append_nil]
      exact hI.1 t htl hp
    · have ht' : t = postTxnRecord env inp u src ip s := by simpa using htr
      subst ht'
      have hsfil : entriesOf s env.txnId = [] := by
        refine List.filter_eq_nil_iff.mpr (fun e he => ?_)
        simp
        intro hEq
        exact hfresh (hEq ▸ hI.2 e he)
      have hjall : jes.filter (fun e => e.transaction_id = env.txnId) = jes := by
        refine List.filter_eq_self.mpr (fun j hj => ?_)
        simp [hids j hj]
      have hidt : (postTxnRecord env inp u src ip s).transaction_id = env.txnId := rfl
      rw [hent, hidt, hsfil, hjall, List.nil_append, hd, hc]
      exact hbal
  · intro e he
    have htxnIds : txnIds { s with
        transactions := s.transactions ++ [postTxnRecord env inp u src ip s],
        entries := s.entries ++ jes,
        audit := s.audit ++ [postAuditRecord env inp u src ip s] } =
        txnIds s ++ [env.txnId] := by
      simp [txnIds, postTxnRecord]
    rw [htxnIds]
    rcases List.mem_append.mp he with hel | her
    · exact List.mem_append.mpr (Or.inl (hI.2 e hel))
    · exact List.mem_append.mpr (Or.inr (by simp [hids e her]))

/-- `reverseMark` never changes a transaction's id. -/
theorem reverseMark_id (tid rid reason : String) (t : Transaction) :
    (reverseMark tid rid reason t).transaction_id = t.transaction_id := by
  unfold reverseMark
  split
  · rfl
  · split
    · rfl
    · rfl

/-- The outer-session update of a reversal preserves the invariant. -/
theorem intact_mark {s1 : LedgerState} (tid rid reason : String)
    (row : AuditRecord) (hI : IntactLedger s1) :
    IntactLedger { s1 with
      transactions := s1.transactions.map (reverseMark tid rid reason),
      audit := s1.audit ++ [row] } := by
  have hent : ∀ x,
      entriesOf { s1 with
        transactions := s1.transactions.map (reverseMark tid rid reason),
        audit := s1.audit ++ [row] } x = entriesOf s1 x := by
    intro x
    simp [entriesOf]
  constructor
  · intro t' ht' hp
    obtain ⟨t, htmem, hmark⟩ := List.mem_map.mp (by simpa using ht')
    subst hmark
    rw [hent, reverseMark_id]
    unfold reverseMark at hp
    split at hp
    · exact absurd hp (by simp)
    · split at hp
      · exact hI.1 t htmem hp
      · exact hI.1 t htmem hp
  · intro e he
    have htxnIds : txnIds { s1 with
        transactions := s1.transactions.map (reverseMark tid rid reason),
        audit := s1.audit ++ [row] } = txnIds s1 := by
      simp [txnIds, List.map_map]
      exact fun t _ => reverseMark_id tid rid reason t
    rw [htxnIds]
    exact hI.2 e (by simpa using he)

/-- Success shape of a reversal run: the original was found `POSTED`
and unreversed, the flipped posting succeeded committing `s1`, and the
outer session committed the marked state on top of it. -/
theorem reverse_run_ok {env : ReverseEnv} {tid reason u src : String}
    {ip : Option String} {s : LedgerState} {rid : String}
    {s2 : LedgerState} {commits : List LedgerState}
    (h : reverse_transaction_run env tid reason u src ip s = (.ok rid, s2, commits)) :
    ∃ orig rinput s1,
      s.transactions.find? (fun t => t.transaction_id = tid) = some orig ∧
      orig.status = TransactionStatus.POSTED ∧
      orig.reversed_by_transaction_id = none ∧
      post_transaction env.post rinput u src ip s = (.ok rid, s1) ∧
      s2 = { s1 with
        transactions := s1.transactions.map (reverseMark tid rid reason),
        audit := s1.audit ++ [reverseAuditRecord env.auditId env.post.now tid
          orig.transaction_number reason u src ip] } ∧
      commits = [s1, s2] := by
  unfold reverse_transaction_run at h
  split at h
  · exact absurd h (by simp)
  · rename_i orig hfind
    split at h
    · exact absurd h (by simp)
    · rename_i hstat
      split at h
      · exact absurd h (by simp)
      · rename_i hrb
        simp only [] at h
        split at h
        · exact absurd h (by simp)
        · rename_i rid' s1 hpost
          simp only [Prod.mk.injEq] at h
          obtain ⟨h1, h2, h3⟩ := h
          have hrid : rid' = rid := Except.ok.inj h1
          subst hrid
          exact ⟨orig, _, s1, hfind, not_ne_iff.mp hstat, hrb, hpost,
            h2.symm, by rw [← h2, ← h3]⟩

/-- A successful reversal preserves the double-entry invariant. -/
theorem reverse_preserves_intact {env : ReverseEnv} {tid reason u src : String}
    {ip : Option String} {s : LedgerState} {rid : String} {s' : LedgerState}
    (hI : IntactLedger s) (hfresh : env.post.txnId ∉ txnIds s)
    (h : reverse_transaction env tid reason u src ip s = (.ok rid, s')) :
    IntactLedger s' := by
  unfold reverse_transaction at h
  simp only [Prod.mk.injEq] at h
  obtain ⟨h1, h2⟩ := h
  have hr : reverse_transaction_run env tid reason u src ip s =
      (.ok rid, s', (reverse_transaction_run env tid reason u src ip s).2.2) := by
    rw [← h1, ← h2]
  obtain ⟨orig, rinput, s1, hfind, hstat, hrb, hpost, hs2, hcommits⟩ := reverse_run_ok hr
  have hI1 : IntactLedger s1 := post_preserves_intact hI hfresh hpost
  rw [hs2]
  exact intact_mark tid rid reason _ hI1

/-- Every reachable state satisfies the double-entry invariant. -/
theorem reachable_intact {s : LedgerState} (h : Reachable s) : IntactLedger s := by
  induction h with
  | empty =>
      constructor
      · intro t ht
        cases ht
      · intro e he
        cases he
  | createAccount hr hc ih =>
      obtain ⟨ht, he⟩ := create_account_ok_same hc
      exact intact_transfer ht he ih
  | post hr hfresh hp ih => exact post_preserves_intact ih hfresh hp
  | reverse hr hfresh hrev ih => exact reverse_preserves_intact ih hfresh hrev

/-! ## Helper lemmas: integrity verification -/

/-- The violation list of a full verification. -/
theorem verify_errors_eq (s : LedgerState) :
    (verify_double_entry_integrity s none).2 =
      (s.transactions.filter (fun t => decide (t.status = TransactionStatus.POSTED))).filterMap
        (fun t =>
          if totalDebits (entriesOf s t.transaction_id) ≠
             totalCredits (entriesOf s t.transaction_id) then
            some (violationMsg t (totalDebits (entriesOf s t.transaction_id))
              (totalCredits (entriesOf s t.transaction_id)))
          else none) := by
  unfold verify_double_entry_integrity
  simp

/-- The verdict is emptiness of the violation list. -/
theorem verify_fst (s : LedgerState) (tid : Option String) :
    (verify_double_entry_integrity s tid).1 =
      decide ((verify_double_entry_integrity s tid).2.length = 0) := by
  unfold verify_double_entry_integrity
  rfl

/-- A state whose `POSTED` transactions are all balanced verifies
clean. -/
theorem verify_of_intact (s : LedgerState)
    (h : ∀ t ∈ s.transactions, t.status = TransactionStatus.POSTED →
      totalDebits (entriesOf s t.transaction_id) =
      totalCredits (entriesOf s t.transaction_id)) :
    verify_double_entry_integrity s none = (true, []) := by
  have h2 : (verify_double_entry_integrity s none).2 = [] := by
    rw [verify_errors_eq]
    refine List.filterMap_eq_nil_iff.mpr (fun t ht => ?_)
    obtain ⟨htm, hts⟩ := List.mem_filter.mp ht
    rw [if_neg (not_ne_iff.mpr (h t htm (by simpa using hts)))]
  have h1 : (verify_double_entry_integrity s none).1 = true := by
    rw [verify_fst, h2]
    rfl
  rw [Prod.ext_iff]
  exact ⟨h1, h2⟩

/-- A stored `POSTED` transaction with unequal recomputed totals is
flagged with its violation string, and the verdict is `False`. -/
theorem verify_flags (s : LedgerState) (t : Transaction)
    (ht : t ∈ s.transactions) (hp : t.status = TransactionStatus.POSTED)
    (hne : totalDebits (entriesOf s t.transaction_id) ≠
           totalCredits (entriesOf s t.transaction_id)) :
    violationMsg t (totalDebits (entriesOf s t.transaction_id))
      (totalCredits (entriesOf s t.transaction_id)) ∈
      (verify_double_entry_integrity s none).2 ∧
    (verify_double_entry_integrity s none).1 = false := by
  have hmem : violationMsg t (totalDebits (entriesOf s t.transaction_id))
      (totalCredits (entriesOf s t.transaction_id)) ∈
      (verify_double_entry_integrity s none).2 := by
    rw [verify_errors_eq]
    refine List.mem_filterMap.mpr ⟨t, List.mem_filter.mpr ⟨ht, by simp [hp]⟩, ?_⟩
    rw [if_pos hne]
  refine ⟨hmem, ?_⟩
  rw [verify_fst]
  simp [List.length_eq_zero]
  exact List.ne_nil_of_mem hmem

/-! ## Helper lemmas: balance refinement -/

/-- In the two-element entry-type enumeration, not-Debit is Credit. -/
theorem not_debit_iff (t : EntryType) :
    ¬t = EntryType.DEBIT ↔ t = EntryType.CREDIT := by
  cases t <;> simp

/-- The debit accumulator fold equals its filter/map/sum reading. -/
theorem foldl_debits (es : List JournalEntry) : ∀ a : Int,
    es.foldl (fun acc e => if e.entry_type = EntryType.DEBIT then acc + e.amount else acc) a =
      a + sumDebits es := by
  induction es with
  | nil => intro a; simp [sumDebits]
  | cons e rest ih =>
      intro a
      by_cases he : e.entry_type = EntryType.DEBIT
      · simp only [List.foldl_cons, if_pos he, ih]
        simp [sumDebits, List.filter_cons, he, add_assoc]
      · simp only [List.foldl_cons, if_neg he, ih]
        simp [sumDebits, List.filter_cons, he]

/-- The credit accumulator fold equals its filter/map/sum reading. -/
theorem foldl_credits (es : List JournalEntry) : ∀ a : Int,
    es.foldl (fun acc e => if e.entry_type = EntryType.DEBIT then acc else acc + e.amount) a =
      a + sumCredits es := by
  induction es with
  | nil => intro a; simp [sumCredits]
  | cons e rest ih =>
      intro a
      by_cases he : e.entry_type = EntryType.DEBIT
      · simp only [List.foldl_cons, if_pos he, ih]
        have : ¬e.entry_type = EntryType.CREDIT := by
          rw [he]; intro hc; cases hc
        simp [sumCredits, List.filter_cons, this]
      · simp only [List.foldl_cons, if_neg he, ih]
        simp [sumCredits, List.filter_cons, (not_debit_iff e.entry_type).mp he, add_assoc]

/-- `totalDebits` is `sum(Debit amounts)`. -/
theorem totalDebits_eq_sumDebits (es : List JournalEntry) :
    totalDebits es = sumDebits es := by
  rw [totalDebits, foldl_debits es 0, zero_add]

/-- `totalCredits` is `sum(Credit amounts)`. -/
theorem totalCredits_eq_sumCredits (es : List JournalEntry) :
    totalCredits es = sumCredits es := by
  rw [totalCredits, foldl_credits es 0, zero_add]

/-- The spec's entry selection coincides with the balance query's
filter. -/
theorem specCounted_eq (s : LedgerState) (code : String) (as_of : Option Nat)
    (e : JournalEntry) : specCounted s code as_of e = entryCounted s code as_of e := by
  unfold specCounted entryCounted
  cases txnOf s e.transaction_id <;> cases as_of <;> rfl

/-! ## Helper lemmas: hash serialization -/

/-- The entry serialization reads only the hash view. -/
theorem entryHashJson_of_view {e e' : JournalEntryInput}
    (h : hashView e = hashView e') : entryHashJson e = entryHashJson e' := by
  unfold hashView at h
  rw [Prod.mk.injEq, Prod.mk.injEq] at h
  obtain ⟨h1, h2, h3⟩ := h
  unfold entryHashJson
  rw [h1, h2, h3]

/-- Entry lists with equal hash views serialize identically. -/
theorem mapEntryJson_of_views : ∀ (es es' : List JournalEntryInput),
    es.map hashView = es'.map hashView →
    es.map entryHashJson = es'.map entryHashJson := by
  intro es
  induction es with
  | nil =>
      intro es' h
      cases es' with
      | nil => rfl
      | cons x xs => exact absurd h (by simp)
  | cons e rest ih =>
      intro es' h
      cases es' with
      | nil => exact absurd h (by simp)
      | cons e' rest' =>
          simp only [List.map_cons, List.cons.injEq] at h ⊢
          exact ⟨entryHashJson_of_view h.1, ih rest' h.2⟩

/-! ## Helper lemmas: reversal commit structure -/

/-- A hit in the left part survives appending a row. -/
theorem find?_id_append_left {l : List Transaction} {t' : Transaction}
    {tid : String} {orig : Transaction}
    (h : l.find? (fun t => t.transaction_id = tid) = some orig) :
    (l ++ [t']).find? (fun t => t.transaction_id = tid) = some orig := by
  rw [List.find?_append, h]
  rfl

/-- With no hit on the left, the appended matching row is found. -/
theorem find?_id_append_right {l : List Transaction} {t' : Transaction} {rid : String}
    (hnone : ∀ t ∈ l, t.transaction_id ≠ rid)
    (hmatch : t'.transaction_id = rid) :
    (l ++ [t']).find? (fun t => t.transaction_id = rid) = some t' := by
  rw [List.find?_append, List.find?_eq_none.mpr (fun t ht => by simp [hnone t ht])]
  simp [List.find?, hmatch]

/-- Lookup by id commutes with the reversal marking (which preserves
ids). -/
theorem find?_mark (l : List Transaction) (tid rid reason x : String) :
    (l.map (reverseMark tid rid reason)).find? (fun t => t.transaction_id = x) =
      (l.find? (fun t => t.transaction_id = x)).map (reverseMark tid rid reason) := by
  rw [List.find?_map]
  have hp : ((fun t => decide (t.transaction_id = x)) ∘ reverseMark tid rid reason) =
      (fun t => decide (t.transaction_id = x)) := by
    funext t
    simp [Function.comp, reverseMark_id]
  rw [hp]

/-- Marking the original transaction. -/
theorem reverseMark_orig (tid rid reason : String) {t : Transaction}
    (h : t.transaction_id = tid) :
    reverseMark tid rid reason t =
      { t with status := .REVERSED, reversed_by_transaction_id := some rid } := by
  unfold reverseMark
  rw [if_pos h]

/-- Marking the reversal transaction. -/
theorem reverseMark_rev (tid rid reason : String) {t : Transaction}
    (h1 : t.transaction_id ≠ tid) (h2 : t.transaction_id = rid) :
    reverseMark tid rid reason t =
      { t with is_reversal := true,
               reverses_transaction_id := some tid,
               reversal_reason := some reason } := by
  unfold reverseMark
  rw [if_neg h1, if_pos h2]

/-! ## Claim theorems -/

/-- C4 (amended): a successful `reverse_transaction` run commits twice,
not atomically.  The first commit (the nested `post_transaction`'s own
session) makes the reversal transaction visible with status `POSTED`
while the original is still `POSTED` and every link field is unset;
only the second commit marks the original `Posted -> Reversed` with
`reversed_by` set and sets the new transaction's `is_reversal`,
`reverses` and `reversal_reason` fields. -/
theorem ledger_c4_two_commits :
    ∀ (env : ReverseEnv) (tid reason u src : String) (ip : Option String)
      (s : LedgerState) (rid : String),
      env.post.txnId ∉ txnIds s →
      (reverse_transaction env tid reason u src ip s).1 = .ok rid →
      ∃ s1,
        reverse_transaction_commits env tid reason u src ip s =
          [s1, (reverse_transaction env tid reason u src ip s).2] ∧
        (s1.transactions.find? (fun t => t.transaction_id = tid)).map
          (fun t => (t.status, t.reversed_by_transaction_id)) =
          some (TransactionStatus.POSTED, none) ∧
        (s1.transactions.find? (fun t => t.transaction_id = rid)).map
          (fun t => (t.status, t.is_reversal, t.reverses_transaction_id,
                     t.reversal_reason)) =
          some (TransactionStatus.POSTED, false, none, none) ∧
        ((reverse_transaction env tid reason u src ip s).2.transactions.find?
          (fun t => t.transaction_id = tid)).map
          (fun t => (t.status, t.reversed_by_transaction_id)) =
          some (TransactionStatus.REVERSED, some rid) ∧
        ((reverse_transaction env tid reason u src ip s).2.transactions.find?
          (fun t => t.transaction_id = rid)).map
          (fun t => (t.is_reversal, t.reverses_transaction_id, t.reversal_reason)) =
          some (true, some tid, some reason) := by
  intro env tid reason u src ip s rid hfresh h1
  have hrun1 : (reverse_transaction_run env tid reason u src ip s).1 = .ok rid := h1
  have hr : reverse_transaction_run env tid reason u src ip s =
      (.ok rid, (reverse_transaction_run env tid reason u src ip s).2.1,
       (reverse_transaction_run env tid reason u src ip s).2.2) := by
    rw [← hrun1]
  obtain ⟨orig, rinput, s1, hfind, hstat, hrb, hpost, hs2, hcommits⟩ := reverse_run_ok hr
  obtain ⟨hridEq, hv, jes, hb, hs1⟩ := post_transaction_ok hpost
  have horigid : orig.transaction_id = tid := by
    have hq := List.find?_some hfind
    simpa using hq
  have horigmem : orig ∈ s.transactions := List.mem_of_find?_eq_some hfind
  have htidmem : tid ∈ txnIds s := horigid ▸ List.mem_map_of_mem _ horigmem
  have hridfresh : rid ∉ txnIds s := hridEq ▸ hfresh
  have hne : tid ≠ rid := fun hEq => hridfresh (hEq ▸ htidmem)
  have hpostTxnId : (postTxnRecord env.post rinput u src ip s).transaction_id = rid := by
    rw [hridEq]
    rfl
  have hfin1 : s1.transactions.find? (fun t => t.transaction_id = tid) = some orig := by
    rw [hs1]
    exact find?_id_append_left hfind
  have hfin2 : s1.transactions.find? (fun t => t.transaction_id = rid) =
      some (postTxnRecord env.post rinput u src ip s) := by
    rw [hs1]
    refine find?_id_append_right (fun t ht hEq => ?_) hpostTxnId
    exact hridfresh (hEq ▸ List.mem_map_of_mem _ ht)
  have hfinal : (reverse_transaction env tid reason u src ip s).2 =
      { s1 with
        transactions := s1.transactions.map (reverseMark tid rid reason),
        audit := s1.audit ++ [reverseAuditRecord env.auditId env.post.now tid
          orig.transaction_number reason u src ip] } := hs2
  have htr : (reverse_transaction env tid reason u src ip s).2.transactions =
      s1.transactions.map (reverseMark tid rid reason) := by
    rw [hfinal]
  refine ⟨s1, hcommits, ?_, ?_, ?_, ?_⟩
  · rw [hfin1, Option.map_some', hstat, hrb]
  · rw [hfin2, Option.map_some']
    rfl
  · rw [htr, find?_mark, hfin1, Option.map_some', Option.map_some',
        reverseMark_orig tid rid reason horigid]
  · rw [htr, find?_mark, hfin2, Option.map_some', Option.map_some',
        reverseMark_rev tid rid reason (by rw [hpostTxnId]; exact hne.symm) hpostTxnId]

/-- Witness for C4: the two-commit structure at the §8 scenario. -/
theorem ledger_c4_witness :
    revEnv.post.txnId ∉ txnIds postedLedger ∧
    ∃ s1,
      reverse_transaction_commits revEnv "T1" "Test" "tester" "TEST" none postedLedger =
        [s1, (reverse_transaction revEnv "T1" "Test" "tester" "TEST" none postedLedger).2] ∧
      (s1.transactions.find? (fun t => t.transaction_id = "T1")).map
        (fun t => (t.status, t.reversed_by_transaction_id)) =
        some (TransactionStatus.POSTED, none) ∧
      (s1.transactions.find? (fun t => t.transaction_id = "T2")).map
        (fun t => (t.status, t.is_reversal, t.reverses_transaction_id,
                   t.reversal_reason)) =
        some (TransactionStatus.POSTED, false, none, none) ∧
      ((reverse_transaction revEnv "T1" "Test" "tester" "TEST" none
          postedLedger).2.transactions.find? (fun t => t.transaction_id = "T1")).map
        (fun t => (t.status, t.reversed_by_transaction_id)) =
        some (TransactionStatus.REVERSED, some "T2") ∧
      ((reverse_transaction revEnv "T1" "Test" "tester" "TEST" none
          postedLedger).2.transactions.find? (fun t => t.transaction_id = "T2")).map
        (fun t => (t.is_reversal, t.reverses_transaction_id, t.reversal_reason)) =
        some (true, some "T1", some "Test") :=
  ⟨by decide,
   ledger_c4_two_commits revEnv "T1" "Test" "tester" "TEST" none postedLedger "T2"
     (by decide) (by decide)⟩

/-- Counterexample for C4: in the §8 scenario the first committed state
of the reversal run already contains the reversal transaction `T2`
(status `POSTED`) while the original `T1` is still `POSTED` and every
link field of both is unset — an intermediate state the claim says is
never visible. -/
theorem ledger_c4_counterexample :
    ((reverse_transaction_commits revEnv "T1" "Test" "tester" "TEST" none
        postedLedger).head?).map
      (fun st => (txnOf st "T1").map (fun t => (t.status, t.reversed_by_transaction_id))) =
      some (some (TransactionStatus.POSTED, none)) ∧
    ((reverse_transaction_commits revEnv "T1" "Test" "tester" "TEST" none
        postedLedger).head?).map
      (fun st => (txnOf st "T2").map (fun t => (t.status, t.is_reversal))) =
      some (some (TransactionStatus.POSTED, false)) ∧
    ((reverse_transaction_commits revEnv "T1" "Test" "tester" "TEST" none
        postedLedger).head?).map
      (fun st => (txnOf st "T2").map
        (fun t => (t.reverses_transaction_id, t.reversal_reason))) =
      some (some (none, none)) := by
  refine ⟨?_, ?_, ?_⟩ <;> decide

/-- C1: evaluating the code at the spec's §8 scenario.  After posting
Debit 1100 = 1000.00 / Credit 4100 = 1000.00 both balances are 1000.00
and reversing marks the original `REVERSED`; but both balances then
come out as `-1000.00`, not the claimed `0.00`: the balance query skips
the now-`REVERSED` original's entries while still counting the
compensating entries. -/
theorem ledger_c1_reversal_balances :
    (post_transaction saleEnv saleInput "tester" "TEST" none baseLedger).1 = .ok "T1" ∧
    get_account_balance postedLedger "1100" none = .ok 100000 ∧
    get_account_balance postedLedger "4100" none = .ok 100000 ∧
    (reverse_transaction revEnv "T1" "Test" "tester" "TEST" none postedLedger).1 =
      .ok "T2" ∧
    (txnOf reversedLedger "T1").map (fun t => t.status) =
      some TransactionStatus.REVERSED ∧
    get_account_balance reversedLedger "1100" none = .ok (-100000) ∧
    get_account_balance reversedLedger "4100" none = .ok (-100000) := by
  decide

/-- C2 (amended): for inputs passing the earlier field and entry
validations, `post_transaction` raises the unbalanced error — stating
the two totals — exactly when the debit total differs from the credit
total, creating nothing; on balanced such inputs the unbalanced error
is never raised. -/
theorem ledger_c2_unbalanced_iff :
    ∀ (env : PostEnv) (inp : TransactionInput) (u src : String)
      (ip : Option String) (s : LedgerState),
      isBlank inp.business_event_type = false →
      isBlank inp.description = false →
      inp.entries ≠ [] →
      (∀ e ∈ inp.entries, e.validate = .ok ()) →
      ((inputDebits inp.entries ≠ inputCredits inp.entries →
          post_transaction env inp u src ip s =
            (.error (.notBalanced (inputDebits inp.entries) (inputCredits inp.entries)), s) ∧
          (LedgerError.notBalanced (inputDebits inp.entries)
            (inputCredits inp.entries)).message =
            "Transaction not balanced: Debits=" ++ toString (inputDebits inp.entries) ++
            ", Credits=" ++ toString (inputCredits inp.entries)) ∧
       (inputDebits inp.entries = inputCredits inp.entries →
          ∀ d c, (post_transaction env inp u src ip s).1 ≠ .error (.notBalanced d c))) := by
  intro env inp u src ip s h1 h2 h3 h4
  constructor
  · intro hne
    have hv := validate_balance_check inp h1 h2 h3 h4
    rw [if_pos hne] at hv
    exact ⟨post_transaction_validate_err hv, rfl⟩
  · intro heq d c
    have hv := validate_balance_check inp h1 h2 h3 h4
    rw [if_neg (not_ne_iff.mpr heq)] at hv
    exact post_no_notBalanced_of_validate_ok hv d c

/-- Witness for C2: the concrete unbalanced posting (Debit 1000.00,
Credit 500.00) fails with the unbalanced error and leaves the state
unchanged. -/
theorem ledger_c2_witness :
    post_transaction saleEnv unbalancedInput "tester" "TEST" none baseLedger =
      (.error (.notBalanced 100000 50000), baseLedger) :=
  ((ledger_c2_unbalanced_iff saleEnv unbalancedInput "tester" "TEST" none baseLedger
    (by decide) (by decide) (by decide) (by decide)).1 (by decide)).1

/-- Counterexample for C2: an input whose debit and credit totals
differ but on which `post_transaction` raises the description error,
not the unbalanced error — refuting the claimed "if and only if" over
every transaction input. -/
theorem ledger_c2_counterexample :
    inputDebits blankDescInput.entries ≠ inputCredits blankDescInput.entries ∧
    post_transaction saleEnv blankDescInput "tester" "TEST" none baseLedger =
      (.error .descriptionRequired, baseLedger) ∧
    LedgerError.descriptionRequired ≠
      .notBalanced (inputDebits blankDescInput.entries)
        (inputCredits blankDescInput.entries) := by
  decide

/-- C3: over any state reachable from the empty ledger through
`create_account`, `post_transaction` and `reverse_transaction`, every
`POSTED` transaction has equal recomputed totals and
`verify_double_entry_integrity` returns `(True, [])`; and in any state
holding a `POSTED` transaction with unequal totals it reports that
transaction's violation string and verdict `False`. -/
theorem ledger_c3_integrity :
    (∀ s, Reachable s → verify_double_entry_integrity s none = (true, [])) ∧
    (∀ (s : LedgerState) (t : Transaction), t ∈ s.transactions →
      t.status = TransactionStatus.POSTED →
      totalDebits (entriesOf s t.transaction_id) ≠
        totalCredits (entriesOf s t.transaction_id) →
      violationMsg t (totalDebits (entriesOf s t.transaction_id))
        (totalCredits (entriesOf s t.transaction_id)) ∈
        (verify_double_entry_integrity s none).2 ∧
      (verify_double_entry_integrity s none).1 = false) := by
  constructor
  · intro s hs
    exact verify_of_intact s (reachable_intact hs).1
  · intro s t ht hp hne
    exact verify_flags s t ht hp hne

/-- Witness for C3: the empty ledger verifies clean, and a tampered
state holding a `POSTED` transaction with Debits 1000.00 / Credits 0 is
flagged with its violation string. -/
theorem ledger_c3_witness :
    verify_double_entry_integrity LedgerState.empty none = (true, []) ∧
    violationMsg tamperedTxn (totalDebits (entriesOf tamperedLedger "TX"))
      (totalCredits (entriesOf tamperedLedger "TX")) ∈
      (verify_double_entry_integrity tamperedLedger none).2 ∧
    (verify_double_entry_integrity tamperedLedger none).1 = false := by
  refine ⟨ledger_c3_integrity.1 _ Reachable.empty, ?_⟩
  exact ledger_c3_integrity.2 tamperedLedger tamperedTxn (by decide) (by decide) (by decide)

/-- C5 (amended): any failing `post_transaction` run rolls back in
full — the committed state, its audit log included, is exactly the
pre-call state; in particular no `TRANSACTION_FAILED` audit record (or
any other row) is written. -/
theorem ledger_c5_failure_rollback :
    ∀ (env : PostEnv) (inp : TransactionInput) (u src : String)
      (ip : Option String) (s : LedgerState) (err : LedgerError) (s' : LedgerState),
      post_transaction env inp u src ip s = (.error err, s') →
      s' = s ∧ s'.audit = s.audit := by
  intro env inp u src ip s err s' h
  have hs := post_transaction_err h
  exact ⟨hs, by rw [hs]⟩

/-- Witness for C5: the rollback applied to the concrete unbalanced
posting. -/
theorem ledger_c5_witness :
    (post_transaction saleEnv unbalancedInput "tester" "TEST" none baseLedger).2 =
      baseLedger ∧
    (post_transaction saleEnv unbalancedInput "tester" "TEST" none baseLedger).2.audit =
      baseLedger.audit := by
  have h1 : (post_transaction saleEnv unbalancedInput "tester" "TEST" none baseLedger).1 =
      .error (.notBalanced 100000 50000) := by decide
  exact ledger_c5_failure_rollback saleEnv unbalancedInput "tester" "TEST" none baseLedger
    (.notBalanced 100000 50000)
    (post_transaction saleEnv unbalancedInput "tester" "TEST" none baseLedger).2
    (by rw [← h1])

/-- Counterexample for C5: after a failing posting no
`TRANSACTION_FAILED` audit record exists anywhere in the committed
state — refuting the claimed separately-committed failure audit. -/
theorem ledger_c5_counterexample :
    (post_transaction saleEnv unbalancedInput "tester" "TEST" none baseLedger).1 =
      .error (.notBalanced 100000 50000) ∧
    ((post_transaction saleEnv unbalancedInput "tester" "TEST" none
        baseLedger).2.audit.filter (fun a => a.event_type = "TRANSACTION_FAILED")) = [] := by
  decide

/-- C6 (amended): `post_transaction` resolves every entry's account by
code and — once input validation has passed — fails with the
account-not-found error of the first unresolvable entry; when every
entry's code resolves it succeeds, regardless of the accounts'
`is_active` flags (no account-inactive check exists). -/
theorem ledger_c6_account_resolution :
    ∀ (env : PostEnv) (inp : TransactionInput) (u src : String)
      (ip : Option String) (s : LedgerState),
      inp.validate = .ok () →
      ((∀ e0, inp.entries.find? (fun e =>
          (s.accounts.find? (fun a => a.account_code = e.account_code)).isNone) = some e0 →
        post_transaction env inp u src ip s = (.error (.accountNotFound e0.account_code), s)) ∧
       ((∀ e ∈ inp.entries,
          (s.accounts.find? (fun a => a.account_code = e.account_code)).isSome) →
        (post_transaction env inp u src ip s).1 = .ok env.txnId)) := by
  intro env inp u src ip s hv
  constructor
  · intro e0 hfind
    unfold post_transaction
    rw [hv, buildEntries_first_missing env env.txnId env.now s.accounts inp.entries 1 e0 hfind]
  · intro hall
    obtain ⟨jes, hjes⟩ :=
      buildEntries_ok_of_accounts env env.txnId env.now s.accounts inp.entries hall 1
    unfold post_transaction
    rw [hv, hjes]

/-- Witness for C6: posting against the unregistered code `9999` fails
with the account-not-found error and no state change. -/
theorem ledger_c6_witness :
    post_transaction saleEnv missingAccountInput "tester" "TEST" none baseLedger =
      (.error (.accountNotFound "9999"), baseLedger) :=
  (ledger_c6_account_resolution saleEnv missingAccountInput "tester" "TEST" none
    baseLedger (by decide)).1 ⟨"9999", .DEBIT, 0, none, none, none, none⟩ (by decide)

/-- Counterexample for C6: posting against a deactivated account
(`is_active = false`) succeeds and commits a `POSTED` transaction —
refuting the claimed account-inactive rejection. -/
theorem ledger_c6_counterexample :
    ((dormantLedger.accounts.find? (fun a => a.account_code = "9")).map
      (fun a => a.is_active)) = some false ∧
    (post_transaction saleEnv dormantInput "tester" "TEST" none dormantLedger).1 =
      .ok "T1" ∧
    ((post_transaction saleEnv dormantInput "tester" "TEST" none
        dormantLedger).2.transactions.find? (fun t => t.transaction_id = "T1")).map
      (fun t => t.status) = some TransactionStatus.POSTED := by
  decide

/-- C7: `get_account_balance` equals the spec-side `balanceOfSpec`
(sum of Debits minus sum of Credits over the Posted-and-dated entry
selection for Asset/Expense, the reverse for Liability/Equity/Revenue)
on every known account code, and fails with the account-not-found
error on unknown codes. -/
theorem ledger_c7_balance_spec :
    ∀ (s : LedgerState) (code : String) (as_of : Option Nat),
      (∀ a, s.accounts.find? (fun x => x.account_code = code) = some a →
        get_account_balance s code as_of =
          .ok (balanceOfSpec s code as_of a.account_type)) ∧
      (s.accounts.find? (fun x => x.account_code = code) = none →
        get_account_balance s code as_of = .error (.accountNotFound code)) := by
  intro s code as_of
  constructor
  · intro a ha
    unfold get_account_balance
    rw [ha]
    have hfil : s.entries.filter (specCounted s code as_of) =
        s.entries.filter (entryCounted s code as_of) := by
      congr 1
      funext e
      rw [specCounted_eq]
    cases hat : a.account_type <;>
      simp [hat, balanceOfSpec, hfil, totalDebits_eq_sumDebits, totalCredits_eq_sumCredits]
  · intro ha
    unfold get_account_balance
    rw [ha]

/-- Witness for C7: the refinement evaluated at the posted §8 scenario
(`1100` is an Asset account) and at an unknown code. -/
theorem ledger_c7_witness :
    get_account_balance postedLedger "1100" none =
      .ok (balanceOfSpec postedLedger "1100" none AccountType.ASSET) ∧
    get_account_balance postedLedger "9999" none =
      .error (.accountNotFound "9999") := by
  constructor
  · exact (ledger_c7_balance_spec postedLedger "1100" none).1
      ⟨"A1", "1100", "Cash", .ASSET, none, 1, true, none, 0, "tester", 1⟩ (by decide)
  · exact (ledger_c7_balance_spec postedLedger "9999" none).2 (by decide)

/-- C8 (amended): the transaction hash is a deterministic function of
the transaction id, the transaction date, and the *sequence* of
(account code, entry type, amount) triples in the order the entries are
supplied — entries differing only in memo or dimension tags hash
identically; reordering the entries, however, changes the digest (see
the counterexample). -/
theorem ledger_c8_hash_content :
    ∀ (tid : String) (d : Nat) (es es' : List JournalEntryInput),
      es.map hashView = es'.map hashView →
      calculate_transaction_hash tid d es = calculate_transaction_hash tid d es' := by
  intro tid d es es' h
  unfold calculate_transaction_hash txnHashJson
  rw [mapEntryJson_of_views es es' h]

/-- Witness for C8: attaching a memo leaves the digest unchanged. -/
theorem ledger_c8_witness :
    calculate_transaction_hash "t" 0 [hashEntryA, hashEntryB] =
      calculate_transaction_hash "t" 0 [hashEntryAMemo, hashEntryB] :=
  ledger_c8_hash_content "t" 0 [hashEntryA, hashEntryB] [hashEntryAMemo, hashEntryB]
    (by decide)

set_option maxRecDepth 40000 in
/-- Counterexample for C8: supplying the same two entries in the
opposite order yields a different digest — the serialization
(`json.dumps` with `sort_keys=True`) sorts dictionary keys but keeps
the entries list in its given order. -/
theorem ledger_c8_counterexample :
    calculate_transaction_hash "t" 0 [hashEntryA, hashEntryB] ≠
      calculate_transaction_hash "t" 0 [hashEntryB, hashEntryA] := by
  decide

/-- C9: a successful post receives transaction number
`<today>-<seq>` where `seq` is the day's stored-transaction count plus
one, zero-padded to six digits, and the day's count increases by one;
in the concrete scenario two same-day posts receive
`20250101-000001` and `20250101-000002`. -/
theorem ledger_c9_transaction_numbers :
    (∀ (env : PostEnv) (inp : TransactionInput) (u src : String)
       (ip : Option String) (s : LedgerState) (tid : String),
       (post_transaction env inp u src ip s).1 = .ok tid →
       ((post_transaction env inp u src ip s).2.transactions.getLast?).map
         (fun t => t.transaction_number) =
         some (env.today ++ "-" ++ pad6 (todayCount s env.today + 1)) ∧
       todayCount (post_transaction env inp u src ip s).2 env.today =
         todayCount s env.today + 1) ∧
    postedLedger2.transactions.map (fun t => t.transaction_number) =
      ["20250101-000001", "20250101-000002"] := by
  constructor
  · intro env inp u src ip s tid hfst
    have hpair : post_transaction env inp u src ip s =
        (.ok tid, (post_transaction env inp u src ip s).2) := by
      rw [← hfst]
    obtain ⟨htid, hv, jes, hb, hs'⟩ := post_transaction_ok hpair
    have hmatch : matchesDayPattern env.today
        (postTxnRecord env inp u src ip s).transaction_number = true := by
      rw [show (postTxnRecord env inp u src ip s).transaction_number =
          generate_transaction_number s env.today from rfl, generate_number_eq]
      exact matchesDayPattern_self _ _
    constructor
    · rw [hs']
      simp only [List.getLast?_concat, Option.map_some']
      rw [show (postTxnRecord env inp u src ip s).transaction_number =
          generate_transaction_number s env.today from rfl, generate_number_eq]
    · rw [hs']
      simp [todayCount, List.filter_append, hmatch]
  · decide

/-- Witness for C9: the general numbering law applied to the first
concrete posting. -/
theorem ledger_c9_witness :
    (postedLedger.transactions.getLast?).map (fun t => t.transaction_number) =
      some ("20250101" ++ "-" ++ pad6 (todayCount baseLedger "20250101" + 1)) ∧
    todayCount postedLedger "20250101" = todayCount baseLedger "20250101" + 1 :=
  ledger_c9_transaction_numbers.1 saleEnv saleInput "tester" "TEST" none baseLedger
    "T1" (by decide)

/-- C10: a transaction whose single entry is a zero-amount Debit (no
matching Credit line) passes validation and is committed with status
`POSTED`. -/
theorem ledger_c10_zero_amount :
    zeroInput.entries = [⟨"1100", EntryType.DEBIT, 0, none, none, none, none⟩] ∧
    (post_transaction zeroEnv zeroInput "tester" "TEST" none baseLedger).1 = .ok "TZ" ∧
    ((post_transaction zeroEnv zeroInput "tester" "TEST" none
        baseLedger).2.transactions.find? (fun t => t.transaction_id = "TZ")).map
      (fun t => t.status) = some TransactionStatus.POSTED := by
  decide

end LedgerSpec
